import Mathlib

/-!
Verification of the snapshot-testing harness in `tests/snapshots/test_snapshots.py`.

The harness stages mock tables in an external database, runs a model entry
point, and compares or records its output artifacts.  Database and filesystem
side effects are modelled as a trace of events; the external collaborators
(`DetDatabase.add_table`, the model entry point, `shutil` operations) are
modelled by oracles recorded in a `CaseEnv` describing one test-case run.
Numeric file comparison (pandas / numpy with `atol=1e-8`, `rtol=0`) is modelled
over exact rationals.
-/

set_option autoImplicit false

namespace Snapshots

/-- Exceptions the harness can raise or observe, tagged with enough data to
distinguish distinct exception objects (`modelExn n` carries an identity so
that re-raising unchanged is expressible). -/
inductive Exn where
  | addTableExn (table : String)
  | modelExn (id : Nat)
  | copytreeExn
  | fileNotFoundExn
  | keyErrorExn
  | assertionExn
  | unsupportedExtensionExn (ext : String)
  deriving DecidableEq, Repr

/-- Observable side effects of one test-case run: database table creation and
removal, the model invocation, directory deletions and file copies, and each
per-file assertion performed during comparison. -/
inductive Event where
  | addTable (table : String)
  | removeTable (table : String)
  | copytreeInputs
  | runModel
  | rmtreeOutputs
  | rmtreeExpected
  | copyFile (rel : String)
  | assertFile (rel : String)
  deriving DecidableEq, Repr

/-- Effect of one event on the external database (the multiset of table names
present in the fixed schema, as a list). -/
def applyEvent (db : List String) : Event → List String
  | Event.addTable t => db ++ [t]
  | Event.removeTable t => db.erase t
  | _ => db

/-- Replay a trace of events against an initial database state. -/
def applyTrace (tr : List Event) (db : List String) : List String :=
  tr.foldl applyEvent db

/-- Model of `remove_mock_data_from_db`: emits one `remove_table` call per
staged table name (guarded by the `len(table_names) > 0` check of the source,
which only skips the database connection when there is nothing to remove). -/
def remove_mock_data_from_db (tableNames : List String) : List Event :=
  if tableNames.length > 0 then tableNames.map Event.removeTable else []

/-- Model of the `add_table` loop inside `dump_mock_data_in_db`: each table of
the manifest is inserted in order; if `add_table` raises for some table
(oracle `fails`), the tables appended to `table_names` so far are removed via
`remove_mock_data_from_db` and the exception propagates. -/
def dumpLoop (fails : String → Bool) (acc : List String) :
    List String → List Event × Except Exn (List String)
  | [] => ([], Except.ok acc)
  | n :: rest =>
    if fails n then
      (remove_mock_data_from_db acc, Except.error (Exn.addTableExn n))
    else
      let r := dumpLoop fails (acc ++ [n]) rest
      (Event.addTable n :: r.1, r.2)

/-- Environment of a single test-case run: the manifest of (already
timestamp-suffixed) table names, plus oracles for every fallible external
call the harness makes. -/
structure CaseEnv where
  manifest : List String
  addFails : String → Bool
  copytreeFails : Bool
  modelResult : Option Exn
  outputsExistsAfterModel : Bool
  expectedDirExists : Bool
  outputFiles : List (String × String)
  expectedFiles : List String
  fileCheck : String → Except Exn Unit

/-- Model of `dump_mock_data_in_db`: stages every manifest table, returning
the emitted database events and either the staged table names or the
propagated insertion error (after rollback). -/
def dump_mock_data_in_db (env : CaseEnv) : List Event × Except Exn (List String) :=
  dumpLoop env.addFails [] env.manifest

/-- Table names and suffixes used by concrete witness runs. -/
def tableA : String := "TableA_17"

def tableB : String := "TableB_17"

def pricesName : String := "Prices_99"

def extraExt : String := ".txt"

/-- Hard-coded extensions that `copy_outputs` does not copy. -/
def extensions_to_ignore : List String := [".html"]

/-- Model of `copy_outputs`: first `shutil.rmtree(dst)` — which raises
`FileNotFoundError` when the destination directory does not exist — then a
recursive copy of every source file whose suffix is not ignored.  Source
files are (relative path, suffix) pairs. -/
def copy_outputs (dstExists : Bool) (srcFiles : List (String × String)) :
    List Event × Except Exn Unit :=
  if dstExists then
    (Event.rmtreeExpected ::
      (srcFiles.filter (fun f => !(extensions_to_ignore.contains f.2))).map
        (fun f => Event.copyFile f.1),
      Except.ok ())
  else
    ([], Except.error Exn.fileNotFoundExn)

/-- Walk of the expected-outputs files inside `compare_outputs`: each file is
asserted in order; on the first assertion error the outputs directory is
removed and the caught exception is re-raised. -/
def compareLoop (check : String → Except Exn Unit) :
    List String → List Event × Except Exn Unit
  | [] => ([], Except.ok ())
  | f :: rest =>
    match check f with
    | Except.ok _ =>
      let r := compareLoop check rest
      (Event.assertFile f :: r.1, r.2)
    | Except.error e => ([Event.assertFile f, Event.rmtreeOutputs], Except.error e)

/-- Model of `compare_outputs`, generic in the per-file assertion outcome. -/
def compare_outputs (check : String → Except Exn Unit) (expectedFiles : List String) :
    List Event × Except Exn Unit :=
  compareLoop check expectedFiles

/-- The `run_type` argument of `test_snapshots`. -/
inductive RunType where
  | compare
  | update
  | create
  deriving DecidableEq, Repr

/-- Output processing of a successful model run inside `test_snapshots`:
create and update modes store the outputs via `copy_outputs`, compare mode
runs `compare_outputs`; afterwards the transient outputs directory is
removed (the comparison failure path removed it already). -/
def outputPhase (rt : RunType) (env : CaseEnv) : List Event × Except Exn Unit :=
  match rt with
  | RunType.compare =>
    match compare_outputs env.fileCheck env.expectedFiles with
    | (ctr, Except.error e) => (ctr, Except.error e)
    | (ctr, Except.ok _) => (ctr ++ [Event.rmtreeOutputs], Except.ok ())
  | _ =>
    match copy_outputs env.expectedDirExists env.outputFiles with
    | (ctr, Except.error e) => (ctr, Except.error e)
    | (ctr, Except.ok _) => (ctr ++ [Event.rmtreeOutputs], Except.ok ())

/-- The `try/except/else` around the model invocation in `test_snapshots`:
if the model raises, the staged tables are removed and the partial outputs
directory deleted when present, then the original exception is re-raised;
on success the staged tables are removed and output processing follows. -/
def modelPhase (rt : RunType) (env : CaseEnv) (tableNames : List String) :
    List Event × Except Exn Unit :=
  match env.modelResult with
  | some e =>
    ([Event.runModel] ++ remove_mock_data_from_db tableNames ++
      (if env.outputsExistsAfterModel then [Event.rmtreeOutputs] else []),
      Except.error e)
  | none =>
    let op := outputPhase rt env
    ([Event.runModel] ++ remove_mock_data_from_db tableNames ++ op.1, op.2)

/-- Model of the body of the per-case loop of `test_snapshots`: stage mock
data, (in create mode) copy the project inputs, run the model with cleanup on
failure, then copy or compare outputs and finally remove the outputs
directory. -/
def test_snapshots_case (rt : RunType) (env : CaseEnv) : List Event × Except Exn Unit :=
  match dump_mock_data_in_db env with
  | (tr, Except.error e) => (tr, Except.error e)
  | (tr, Except.ok tableNames) =>
    if rt == RunType.create && env.copytreeFails then
      (tr, Except.error Exn.copytreeExn)
    else
      let mp := modelPhase rt env tableNames
      (tr ++ (if rt == RunType.create then [Event.copytreeInputs] else []) ++ mp.1, mp.2)

/-- `ABSOLUTE_TOLERANCE = 1e-8` from the source, as an exact rational. -/
def ABSOLUTE_TOLERANCE : ℚ := 1 / 100000000

/-- `RELATIVE_TOLERANCE = 0` from the source. -/
def RELATIVE_TOLERANCE : ℚ := 0

/-- One value comparison under `atol=ABSOLUTE_TOLERANCE, rtol=RELATIVE_TOLERANCE`
(the numpy/pandas criterion `|actual - expected| <= atol + rtol * |expected|`). -/
def cellClose (a e : ℚ) : Bool :=
  decide (|a - e| ≤ ABSOLUTE_TOLERANCE + RELATIVE_TOLERANCE * |e|)

/-- Elementwise closeness of two rows (or flat arrays), including the length
check performed by the pandas/numpy assertion helpers. -/
def rowsClose (r s : List ℚ) : Bool :=
  r.length == s.length && (r.zip s).all (fun q => cellClose q.1 q.2)

/-- Closeness of two tables: equal shape and every cell within tolerance, as
checked by `pd.testing.assert_frame_equal(..., atol=1e-8, rtol=0)`. -/
def framesClose (d e : List (List ℚ)) : Bool :=
  d.length == e.length && (d.zip e).all (fun p => rowsClose p.1 p.2)

/-- Equal row/column shape of two tables (no value comparison). -/
def sameShape (d e : List (List ℚ)) : Bool :=
  d.length == e.length && (d.zip e).all (fun p => p.1.length == p.2.length)

/-- Model of `assert_csv`: both csv files parsed into tables of rationals and
compared with `assert_frame_equal` under the fixed tolerances. -/
def assert_csv (data expected : List (List ℚ)) : Except Exn Unit :=
  if framesClose data expected then Except.ok () else Except.error Exn.assertionExn

/-- Member names of an npz archive (the `files` attribute). -/
def keysOf (a : List (String × List ℚ)) : List String := a.map Prod.fst

/-- Python `set(xs) == set(ys)`: mutual containment of the name lists. -/
def sameKeySet (a b : List String) : Bool := a.all b.contains && b.all a.contains

/-- The member-comparison loop of `assert_npz`: every member named in the
expected archive is compared elementwise with `np.testing.assert_allclose`;
the returned list records the members compared before returning. -/
def npzLoop (data expected : List (String × List ℚ)) :
    List String → List String × Except Exn Unit
  | [] => ([], Except.ok ())
  | n :: rest =>
    if rowsClose ((data.lookup n).getD []) ((expected.lookup n).getD []) then
      let r := npzLoop data expected rest
      (n :: r.1, r.2)
    else ([n], Except.error Exn.assertionExn)

/-- Model of `assert_npz`: a dedicated `KeyError` when the member-name sets of
the two archives differ, otherwise elementwise comparison of every member of
the expected archive.  The first component records which members were
compared. -/
def assert_npz (data expected : List (String × List ℚ)) :
    List String × Except Exn Unit :=
  if sameKeySet (keysOf data) (keysOf expected) then
    npzLoop data expected (keysOf expected)
  else
    ([], Except.error Exn.keyErrorExn)

/-- Parsed JSON documents as produced by `json.load`: objects become dicts
(association lists with distinct keys), JSON numbers become `int` or `float`
Python values. -/
inductive Json where
  | null
  | bool (b : Bool)
  | int (n : Int)
  | float (q : ℚ)
  | str (s : String)
  | arr (items : List Json)
  | obj (fields : List (String × Json))

/-- Numeric value of a Python bool (`True == 1` in Python). -/
def pyNum (b : Bool) : Int := if b then 1 else 0

/-- Dict member access `gs[k]` used by Python dict equality. -/
def lookupJson (k : String) : List (String × Json) → Option Json
  | [] => none
  | (k2, v) :: rest => if k == k2 then some v else lookupJson k rest

mutual

/-- Python `==` on parsed JSON documents: numeric values compare across
`bool`/`int`/`float` by value, strings and `None` by identity of kind and
value, lists elementwise, dicts by equal size and pointwise-equal values at
every key; values of different non-numeric kinds are unequal. -/
def pyEq : Json → Json → Bool
  | Json.null, Json.null => true
  | Json.bool a, Json.bool b => a == b
  | Json.bool a, Json.int b => pyNum a == b
  | Json.bool a, Json.float q => (pyNum a : ℚ) == q
  | Json.int a, Json.bool b => a == pyNum b
  | Json.int a, Json.int b => a == b
  | Json.int a, Json.float q => (a : ℚ) == q
  | Json.float p, Json.bool b => p == (pyNum b : ℚ)
  | Json.float p, Json.int b => p == (b : ℚ)
  | Json.float p, Json.float q => p == q
  | Json.str s, Json.str t => s == t
  | Json.arr xs, Json.arr ys => pyEqList xs ys
  | Json.obj fs, Json.obj gs => fs.length == gs.length && pyEqFields fs gs
  | _, _ => false

/-- Python `==` on lists of JSON values, elementwise. -/
def pyEqList : List Json → List Json → Bool
  | [], [] => true
  | x :: xs, y :: ys => pyEq x y && pyEqList xs ys
  | _, _ => false

/-- Python dict equality, one direction: every key of the first dict is
present in the second with an equal value. -/
def pyEqFields : List (String × Json) → List (String × Json) → Bool
  | [], _ => true
  | (k, v) :: rest, gs =>
    (match lookupJson k gs with
     | some w => pyEq v w
     | none => false) && pyEqFields rest gs

end

/-- Model of `assert_json`: both documents parsed with `json.load` and checked
with `assert data == expected` under Python equality. -/
def assert_json (data expected : Json) : Except Exn Unit :=
  if pyEq data expected then Except.ok () else Except.error Exn.assertionExn

/-- Content of an output artifact, determining the suffix-driven dispatch of
`assert_file` (`.csv`, `.json`, `.npz`, `.html`, or an unsupported suffix). -/
inductive Content where
  | csv (table : List (List ℚ))
  | json (doc : Json)
  | npz (archive : List (String × List ℚ))
  | html
  | other (ext : String)

/-- Model of `assert_file`: dispatch on the expected file's suffix; `.html`
is skipped, an unrecognized suffix is a hard error, and otherwise the actual
file is read (raising `FileNotFoundError` when it does not exist) and
compared by the format-specific assertion. -/
def assert_file (actual : Option Content) (expected : Content) : Except Exn Unit :=
  match expected with
  | Content.csv t =>
    match actual with
    | some (Content.csv t2) => assert_csv t2 t
    | some _ => Except.error Exn.assertionExn
    | none => Except.error Exn.fileNotFoundExn
  | Content.json d =>
    match actual with
    | some (Content.json d2) => assert_json d2 d
    | some _ => Except.error Exn.assertionExn
    | none => Except.error Exn.fileNotFoundExn
  | Content.npz a =>
    match actual with
    | some (Content.npz a2) => (assert_npz a2 a).2
    | some _ => Except.error Exn.assertionExn
    | none => Except.error Exn.fileNotFoundExn
  | Content.html => Except.ok ()
  | Content.other ext => Except.error (Exn.unsupportedExtensionExn ext)

/-- The walk of `compare_outputs` over a concrete filesystem: the expected
tree is a list of (relative path, content) pairs walked in order, and the
actual tree is consulted only through `List.lookup` at the expected relative
paths. -/
def compareFsLoop (actualFs : List (String × Content)) :
    List (String × Content) → List Event × Except Exn Unit
  | [] => ([], Except.ok ())
  | (rel, c) :: rest =>
    match assert_file (actualFs.lookup rel) c with
    | Except.ok _ =>
      let r := compareFsLoop actualFs rest
      (Event.assertFile rel :: r.1, r.2)
    | Except.error e => ([Event.assertFile rel, Event.rmtreeOutputs], Except.error e)

/-- Model of `compare_outputs` applied to concrete expected and actual output
trees. -/
def compare_outputs_fs (expectedFs actualFs : List (String × Content)) :
    List Event × Except Exn Unit :=
  compareFsLoop actualFs expectedFs

/-- Python `min` over a list (`none` models the `ValueError` on an empty
sequence). -/
def listMin : List Nat → Option Nat
  | [] => none
  | x :: xs => some (xs.foldl min x)

/-- Model of the numbering logic of `create_new_case_folder`: the maximum
existing case number (0 when none exist), then the smallest element of
`range(1, max + 2)` that is not already used. -/
def create_new_case_number (caseNumbers : List Nat) : Option Nat :=
  let maxCaseNumber := if caseNumbers.length > 0 then caseNumbers.foldl max 0 else 0
  listMin ((List.range' 1 (maxCaseNumber + 1)).filter (fun c => !(caseNumbers.contains c)))

/-! ## Helper lemmas -/

@[simp]
theorem remove_mock_data_from_db_eq (ts : List String) :
    remove_mock_data_from_db ts = ts.map Event.removeTable := by
  cases ts <;> simp [remove_mock_data_from_db]

/-- Complete case analysis of the staging loop: either every insertion
succeeds and the trace is the list of insertions, or the manifest splits at
the first failing table and the trace ends with the rollback removals. -/
theorem dumpLoop_cases (fails : String → Bool) :
    ∀ (names acc : List String),
      ((∀ n ∈ names, fails n = false) ∧
        dumpLoop fails acc names = (names.map Event.addTable, Except.ok (acc ++ names))) ∨
      (∃ pre bad rest, names = pre ++ bad :: rest ∧
        (∀ n ∈ pre, fails n = false) ∧ fails bad = true ∧
        dumpLoop fails acc names =
          (pre.map Event.addTable ++ (acc ++ pre).map Event.removeTable,
            Except.error (Exn.addTableExn bad)))
  | [], acc => by
    left
    simp [dumpLoop]
  | n :: rest, acc => by
    by_cases hn : fails n = true
    · right
      exact ⟨[], n, rest, by simp, by simp, hn, by simp [dumpLoop, hn]⟩
    · rw [Bool.not_eq_true] at hn
      rcases dumpLoop_cases fails rest (acc ++ [n]) with ⟨hall, heq⟩ |
        ⟨pre, bad, tail, hsplit, hpre, hbad, heq⟩
      · left
        refine ⟨fun m hm => ?_, ?_⟩
        · rcases List.mem_cons.mp hm with h | h
          · exact h ▸ hn
          · exact hall m h
        · simp [dumpLoop, hn, heq]
      · right
        refine ⟨n :: pre, bad, tail, by simp [hsplit], ?_, hbad, ?_⟩
        · intro m hm
          rcases List.mem_cons.mp hm with h | h
          · exact h ▸ hn
          · exact hpre m h
        · simp [dumpLoop, hn, heq, List.append_assoc]

@[simp]
theorem applyTrace_nil (db : List String) : applyTrace [] db = db := rfl

theorem applyTrace_append (a b : List Event) (db : List String) :
    applyTrace (a ++ b) db = applyTrace b (applyTrace a db) :=
  List.foldl_append ..

theorem applyTrace_addTables (l : List String) (db : List String) :
    applyTrace (l.map Event.addTable) db = db ++ l := by
  induction l generalizing db with
  | nil => simp [applyTrace]
  | cons x xs ih =>
    simp only [List.map_cons, applyTrace, List.foldl_cons] at *
    rw [show applyEvent db (Event.addTable x) = db ++ [x] from rfl, ih]
    simp

theorem count_applyTrace_removeTables (l : List String) (db : List String) (t : String) :
    (applyTrace (l.map Event.removeTable) db).count t = db.count t - l.count t := by
  induction l generalizing db with
  | nil => simp [applyTrace]
  | cons x xs ih =>
    have h1 : applyTrace ((x :: xs).map Event.removeTable) db
        = applyTrace (xs.map Event.removeTable) (db.erase x) := rfl
    rw [h1, ih, List.count_erase, List.count_cons]
    by_cases h : x = t
    · subst h; simp; omega
    · simp [h, fun hc : t = x => h hc.symm]

/-! ## C1: atomic mock-data staging -/

/-- C1: Mock-data staging is atomic per case: if any `add_table` call of the
batch raises, every table inserted earlier in the batch is removed (the trace
is the inserted prefix followed by its removal) before the error propagates,
so no table of the batch remains in a database that did not already contain
its fresh names. -/
theorem C1_staging_atomic (env : CaseEnv) (db : List String) (e : Exn)
    (herr : (dump_mock_data_in_db env).2 = Except.error e)
    (hfresh : ∀ t ∈ env.manifest, t ∉ db) :
    (∃ pre bad rest, env.manifest = pre ++ bad :: rest ∧
      (dump_mock_data_in_db env).1 =
        pre.map Event.addTable ++ pre.map Event.removeTable) ∧
    ∀ t ∈ env.manifest, t ∉ applyTrace (dump_mock_data_in_db env).1 db := by
  rcases dumpLoop_cases env.addFails env.manifest [] with ⟨hall, heq⟩ |
    ⟨pre, bad, rest, hsplit, hpre, hbad, heq⟩
  · rw [dump_mock_data_in_db, heq] at herr
    simp at herr
  · have htr : (dump_mock_data_in_db env).1 =
        pre.map Event.addTable ++ pre.map Event.removeTable := by
      rw [dump_mock_data_in_db, heq]
      simp
    refine ⟨⟨pre, bad, rest, hsplit, htr⟩, ?_⟩
    intro t ht
    rw [htr, applyTrace_append, applyTrace_addTables]
    rw [← List.count_eq_zero]
    rw [count_applyTrace_removeTables, List.count_append]
    have hdb : db.count t = 0 := List.count_eq_zero.mpr (hfresh t ht)
    omega

/-- Environment witnessing C1: two manifest tables, the second insertion
fails. -/
def C1env : CaseEnv where
  manifest := [tableA, tableB]
  addFails := fun n => n == tableB
  copytreeFails := false
  modelResult := none
  outputsExistsAfterModel := false
  expectedDirExists := true
  outputFiles := []
  expectedFiles := []
  fileCheck := fun _ => Except.ok ()

/-- Witness for C1 at a concrete failing batch against an empty database. -/
theorem C1_staging_atomic_witness :
    ((dump_mock_data_in_db C1env).2 = Except.error (Exn.addTableExn tableB) ∧
      ∀ t ∈ C1env.manifest, t ∉ ([] : List String)) ∧
    ((∃ pre bad rest, C1env.manifest = pre ++ bad :: rest ∧
        (dump_mock_data_in_db C1env).1 =
          pre.map Event.addTable ++ pre.map Event.removeTable) ∧
      ∀ t ∈ C1env.manifest, t ∉ applyTrace (dump_mock_data_in_db C1env).1 []) := by
  refine ⟨⟨rfl, by simp⟩, ?_⟩
  exact C1_staging_atomic C1env [] (Exn.addTableExn tableB) rfl (by simp)

/-! ## Counting lemmas for database events -/

theorem addTable_injective : Function.Injective Event.addTable := by
  intro a b h
  injection h

theorem removeTable_injective : Function.Injective Event.removeTable := by
  intro a b h
  injection h

@[simp]
theorem count_map_addTable (l : List String) (t : String) :
    (l.map Event.addTable).count (Event.addTable t) = l.count t :=
  List.count_map_of_injective l Event.addTable addTable_injective t

@[simp]
theorem count_map_removeTable (l : List String) (t : String) :
    (l.map Event.removeTable).count (Event.removeTable t) = l.count t :=
  List.count_map_of_injective l Event.removeTable removeTable_injective t

@[simp]
theorem count_map_addTable_remove (l : List String) (t : String) :
    (l.map Event.addTable).count (Event.removeTable t) = 0 :=
  List.count_eq_zero.mpr (by simp)

@[simp]
theorem count_map_removeTable_add (l : List String) (t : String) :
    (l.map Event.removeTable).count (Event.addTable t) = 0 :=
  List.count_eq_zero.mpr (by simp)

theorem compareLoop_events (check : String → Except Exn Unit) :
    ∀ (files : List String), ∀ ev ∈ (compareLoop check files).1,
      ev = Event.rmtreeOutputs ∨ ∃ f, ev = Event.assertFile f
  | [], ev, h => by simp [compareLoop] at h
  | f :: rest, ev, h => by
    rcases hc : check f with e | u
    · simp only [compareLoop, hc] at h
      rcases List.mem_cons.mp h with h1 | h1
      · exact Or.inr ⟨f, h1⟩
      · left
        simpa using h1
    · simp only [compareLoop, hc] at h
      rcases List.mem_cons.mp h with h1 | h1
      · exact Or.inr ⟨f, h1⟩
      · exact compareLoop_events check rest ev h1

@[simp]
theorem count_compareLoop_add (check : String → Except Exn Unit) (files : List String)
    (t : String) : (compareLoop check files).1.count (Event.addTable t) = 0 := by
  refine List.count_eq_zero.mpr fun h => ?_
  rcases compareLoop_events check files _ h with h1 | ⟨f, h1⟩ <;> simp at h1

@[simp]
theorem count_compareLoop_remove (check : String → Except Exn Unit) (files : List String)
    (t : String) : (compareLoop check files).1.count (Event.removeTable t) = 0 := by
  refine List.count_eq_zero.mpr fun h => ?_
  rcases compareLoop_events check files _ h with h1 | ⟨f, h1⟩ <;> simp at h1

theorem copy_outputs_events (dstExists : Bool) (srcFiles : List (String × String)) :
    ∀ ev ∈ (copy_outputs dstExists srcFiles).1,
      ev = Event.rmtreeExpected ∨ ∃ f, ev = Event.copyFile f := by
  intro ev h
  rcases dstExists with _ | _
  · simp [copy_outputs] at h
  · rw [copy_outputs] at h
    rcases List.mem_cons.mp h with h1 | h1
    · exact Or.inl h1
    · right
      rcases List.mem_map.mp h1 with ⟨p, _, hp⟩
      exact ⟨p.1, hp.symm⟩

@[simp]
theorem count_copy_outputs_add (dstExists : Bool) (srcFiles : List (String × String))
    (t : String) : (copy_outputs dstExists srcFiles).1.count (Event.addTable t) = 0 := by
  refine List.count_eq_zero.mpr fun h => ?_
  rcases copy_outputs_events dstExists srcFiles _ h with h1 | ⟨f, h1⟩ <;> simp at h1

@[simp]
theorem count_copy_outputs_remove (dstExists : Bool) (srcFiles : List (String × String))
    (t : String) : (copy_outputs dstExists srcFiles).1.count (Event.removeTable t) = 0 := by
  refine List.count_eq_zero.mpr fun h => ?_
  rcases copy_outputs_events dstExists srcFiles _ h with h1 | ⟨f, h1⟩ <;> simp at h1

@[simp]
theorem count_map_copyFile_add (l : List (String × String)) (t : String) :
    ((l.map (fun f => Event.copyFile f.1)).count (Event.addTable t)) = 0 :=
  List.count_eq_zero.mpr (by simp)

@[simp]
theorem count_map_copyFile_remove (l : List (String × String)) (t : String) :
    ((l.map (fun f => Event.copyFile f.1)).count (Event.removeTable t)) = 0 :=
  List.count_eq_zero.mpr (by simp)

theorem count_outputPhase_add (rt : RunType) (env : CaseEnv) (t : String) :
    (outputPhase rt env).1.count (Event.addTable t) = 0 := by
  rcases rt with _ | _ | _
  · rcases hco : compare_outputs env.fileCheck env.expectedFiles with ⟨ctr, cres⟩
    have hctr : ctr = (compareLoop env.fileCheck env.expectedFiles).1 := by
      rw [show compareLoop env.fileCheck env.expectedFiles = (ctr, cres) from hco]
    rcases cres with e | u <;> simp [outputPhase, hco, hctr, List.count_append]
  · rcases hde : env.expectedDirExists with _ | _ <;>
      simp [outputPhase, copy_outputs, hde, List.count_append]
  · rcases hde : env.expectedDirExists with _ | _ <;>
      simp [outputPhase, copy_outputs, hde, List.count_append]

theorem count_outputPhase_remove (rt : RunType) (env : CaseEnv) (t : String) :
    (outputPhase rt env).1.count (Event.removeTable t) = 0 := by
  rcases rt with _ | _ | _
  · rcases hco : compare_outputs env.fileCheck env.expectedFiles with ⟨ctr, cres⟩
    have hctr : ctr = (compareLoop env.fileCheck env.expectedFiles).1 := by
      rw [show compareLoop env.fileCheck env.expectedFiles = (ctr, cres) from hco]
    rcases cres with e | u <;> simp [outputPhase, hco, hctr, List.count_append]
  · rcases hde : env.expectedDirExists with _ | _ <;>
      simp [outputPhase, copy_outputs, hde, List.count_append]
  · rcases hde : env.expectedDirExists with _ | _ <;>
      simp [outputPhase, copy_outputs, hde, List.count_append]

theorem count_modelPhase_add (rt : RunType) (env : CaseEnv) (tableNames : List String)
    (t : String) : (modelPhase rt env tableNames).1.count (Event.addTable t) = 0 := by
  rcases hm : env.modelResult with _ | e <;>
    rcases ho : env.outputsExistsAfterModel with _ | _ <;>
    simp [modelPhase, hm, ho, List.count_append, count_outputPhase_add]

theorem count_modelPhase_remove (rt : RunType) (env : CaseEnv) (tableNames : List String)
    (t : String) :
    (modelPhase rt env tableNames).1.count (Event.removeTable t) = tableNames.count t := by
  rcases hm : env.modelResult with _ | e <;>
    rcases ho : env.outputsExistsAfterModel with _ | _ <;>
    simp [modelPhase, hm, ho, List.count_append, count_outputPhase_remove]

/-! ## C2: mock tables removed exactly once per run -/

/-- C2: Every mock table created during a test-case run is removed exactly
once before the run returns, whatever the outcome: in the trace of a case
run, the number of `remove_table` calls for each name equals the number of
`add_table` calls, and each table is created at most once.  The hypothesis
on create mode reflects that a freshly created case directory has no
`Inputs/_Database` folder, hence an empty manifest. -/
theorem C2_mock_tables_removed_once (rt : RunType) (env : CaseEnv)
    (hnodup : env.manifest.Nodup) (hcreate : rt = RunType.create → env.manifest = [])
    (t : String) :
    (test_snapshots_case rt env).1.count (Event.addTable t) ≤ 1 ∧
    (test_snapshots_case rt env).1.count (Event.removeTable t) =
      (test_snapshots_case rt env).1.count (Event.addTable t) := by
  have hmc : env.manifest.count t ≤ 1 := List.nodup_iff_count_le_one.mp hnodup t
  rcases dumpLoop_cases env.addFails env.manifest [] with ⟨hall, heq⟩ |
    ⟨pre, bad, rest, hsplit, hpre, hbad, heq⟩
  · have hd : dump_mock_data_in_db env =
        (env.manifest.map Event.addTable, Except.ok env.manifest) := by
      rw [dump_mock_data_in_db, heq]
      simp
    by_cases hcc : (rt == RunType.create && env.copytreeFails) = true
    · have hrt : rt = RunType.create := by
        have := (Bool.and_eq_true _ _).mp hcc
        exact beq_iff_eq.mp this.1
      have hman : env.manifest = [] := hcreate hrt
      simp [test_snapshots_case, hd, hcc, hman]
    · have htr : test_snapshots_case rt env =
          (env.manifest.map Event.addTable ++
            (if rt == RunType.create then [Event.copytreeInputs] else []) ++
            (modelPhase rt env env.manifest).1, (modelPhase rt env env.manifest).2) := by
        simp [test_snapshots_case, hd, hcc]
      rw [htr]
      simp only [List.count_append, count_map_addTable, count_map_addTable_remove,
        count_modelPhase_add, count_modelPhase_remove]
      rcases hb : (rt == RunType.create) with _ | _ <;> simp [hmc]
  · have hd : dump_mock_data_in_db env =
        (pre.map Event.addTable ++ pre.map Event.removeTable,
          Except.error (Exn.addTableExn bad)) := by
      rw [dump_mock_data_in_db, heq]
      simp
    have hprec : pre.count t ≤ 1 := by
      rw [hsplit, List.count_append] at hmc
      omega
    simp [test_snapshots_case, hd, List.count_append, hprec]

/-- Environment witnessing C2: two staged tables, the model raises. -/
def C2env : CaseEnv where
  manifest := [tableA, tableB]
  addFails := fun _ => false
  copytreeFails := false
  modelResult := some (Exn.modelExn 7)
  outputsExistsAfterModel := true
  expectedDirExists := true
  outputFiles := []
  expectedFiles := []
  fileCheck := fun _ => Except.ok ()

/-- Witness for C2 on a concrete compare-mode run whose model raises. -/
theorem C2_mock_tables_removed_once_witness :
    (C2env.manifest.Nodup ∧ (RunType.compare = RunType.create → C2env.manifest = [])) ∧
    ((test_snapshots_case RunType.compare C2env).1.count (Event.addTable tableA) ≤ 1 ∧
      (test_snapshots_case RunType.compare C2env).1.count (Event.removeTable tableA) =
        (test_snapshots_case RunType.compare C2env).1.count (Event.addTable tableA)) := by
  have h1 : C2env.manifest.Nodup := by decide
  have h2 : RunType.compare = RunType.create → C2env.manifest = [] :=
    fun h => absurd h (by decide)
  exact ⟨⟨h1, h2⟩, C2_mock_tables_removed_once RunType.compare C2env h1 h2 tableA⟩

/-! ## C4: cleanup and unchanged re-raise on model failure -/

/-- C4: If the model raises exception `e` during a case run that reached the
model invocation, the case run first removes every staged mock table, then
deletes the partial outputs directory exactly when it exists, and terminates
with the very same exception `e`. -/
theorem C4_model_failure_cleanup (rt : RunType) (env : CaseEnv) (e : Exn)
    (tr : List Event) (tableNames : List String)
    (hd : dump_mock_data_in_db env = (tr, Except.ok tableNames))
    (hc : rt = RunType.create → env.copytreeFails = false)
    (hm : env.modelResult = some e) :
    test_snapshots_case rt env =
      (tr ++ (if rt == RunType.create then [Event.copytreeInputs] else []) ++
        ([Event.runModel] ++ tableNames.map Event.removeTable ++
          (if env.outputsExistsAfterModel then [Event.rmtreeOutputs] else [])),
        Except.error e) := by
  have hcc : (rt == RunType.create && env.copytreeFails) = false := by
    rcases rt with _ | _ | _
    · simp
    · simp
    · simp [hc rfl]
  simp [test_snapshots_case, hd, hcc, modelPhase, hm]

/-- Environment witnessing C4: one staged table, the model raises
`modelExn 3`, the partial outputs directory exists. -/
def C4env : CaseEnv where
  manifest := [pricesName]
  addFails := fun _ => false
  copytreeFails := false
  modelResult := some (Exn.modelExn 3)
  outputsExistsAfterModel := true
  expectedDirExists := true
  outputFiles := []
  expectedFiles := []
  fileCheck := fun _ => Except.ok ()

/-- Witness for C4 at a concrete compare-mode run. -/
theorem C4_model_failure_cleanup_witness :
    (dump_mock_data_in_db C4env = ([Event.addTable pricesName], Except.ok [pricesName]) ∧
      (RunType.compare = RunType.create → C4env.copytreeFails = false) ∧
      C4env.modelResult = some (Exn.modelExn 3)) ∧
    test_snapshots_case RunType.compare C4env =
      ([Event.addTable pricesName] ++
        (if RunType.compare == RunType.create then [Event.copytreeInputs] else []) ++
        ([Event.runModel] ++ [pricesName].map Event.removeTable ++
          (if C4env.outputsExistsAfterModel then [Event.rmtreeOutputs] else [])),
        Except.error (Exn.modelExn 3)) := by
  have h1 : dump_mock_data_in_db C4env =
      ([Event.addTable pricesName], Except.ok [pricesName]) := rfl
  have h2 : RunType.compare = RunType.create → C4env.copytreeFails = false :=
    fun h => absurd h (by decide)
  have h3 : C4env.modelResult = some (Exn.modelExn 3) := rfl
  exact ⟨⟨h1, h2, h3⟩,
    C4_model_failure_cleanup RunType.compare C4env (Exn.modelExn 3) _ _ h1 h2 h3⟩

/-! ## C5: failed comparison deletes the outputs directory -/

/-- C5: If the comparison of expected against actual outputs raises, then the
raised exception is the assertion error of some expected file, and the final
action of the comparison is the removal of the actual outputs directory —
the directory is deleted before the comparison error propagates. -/
theorem C5_compare_failure_removes_outputs (check : String → Except Exn Unit) :
    ∀ (files : List String) (e : Exn),
      (compare_outputs check files).2 = Except.error e →
      (∃ f ∈ files, check f = Except.error e) ∧
      (compare_outputs check files).1.getLast? = some Event.rmtreeOutputs
  | [], e, h => by simp [compare_outputs, compareLoop] at h
  | f :: rest, e, h => by
    rcases hc : check f with e0 | u
    · have hres : compare_outputs check (f :: rest) =
          ([Event.assertFile f, Event.rmtreeOutputs], Except.error e0) := by
        simp [compare_outputs, compareLoop, hc]
      rw [hres] at h
      have he : e0 = e := by
        simpa using h
      refine ⟨⟨f, by simp, he ▸ hc⟩, ?_⟩
      rw [hres]
      rfl
    · have hres : compare_outputs check (f :: rest) =
          (Event.assertFile f :: (compareLoop check rest).1,
            (compareLoop check rest).2) := by
        simp [compare_outputs, compareLoop, hc]
      rw [hres] at h
      have ih := C5_compare_failure_removes_outputs check rest e h
      rcases ih with ⟨⟨g, hg, hcg⟩, hlast⟩
      refine ⟨⟨g, by simp [hg], hcg⟩, ?_⟩
      rw [hres]
      rcases hr : (compareLoop check rest).1 with _ | ⟨b, l2⟩
      · rw [show compare_outputs check rest = compareLoop check rest from rfl, hr] at hlast
        simp at hlast
      · rw [show compare_outputs check rest = compareLoop check rest from rfl, hr] at hlast
        simpa using hlast

/-- Witness for C5: one matching file, then a mismatching one. -/
theorem C5_compare_failure_removes_outputs_witness :
    ((compare_outputs
        (fun f => if f == "bad.csv" then Except.error Exn.assertionExn else Except.ok ())
        ["good.csv", "bad.csv"]).2 = Except.error Exn.assertionExn) ∧
    ((∃ f ∈ ["good.csv", "bad.csv"],
        (fun f => if f == "bad.csv" then Except.error Exn.assertionExn else Except.ok ()) f =
          Except.error Exn.assertionExn) ∧
      (compare_outputs
        (fun f => if f == "bad.csv" then Except.error Exn.assertionExn else Except.ok ())
        ["good.csv", "bad.csv"]).1.getLast? = some Event.rmtreeOutputs) := by
  have h1 : (compare_outputs
      (fun f => if f == "bad.csv" then Except.error Exn.assertionExn else Except.ok ())
      ["good.csv", "bad.csv"]).2 = Except.error Exn.assertionExn := rfl
  exact ⟨h1, C5_compare_failure_removes_outputs _ ["good.csv", "bad.csv"] Exn.assertionExn h1⟩

/-! ## C6: create mode on a fresh case -/

/-- Environment of a freshly created case: the new case directory has no
`Inputs/_Database` folder (empty manifest) and no `ExpectedOutputs` directory
yet; the model succeeds and produces one csv output. -/
def C6env : CaseEnv where
  manifest := []
  addFails := fun _ => false
  copytreeFails := false
  modelResult := none
  outputsExistsAfterModel := true
  expectedDirExists := false
  outputFiles := [("df.csv", ".csv")]
  expectedFiles := []
  fileCheck := fun _ => Except.ok ()

/-- C6 (code bug): on a freshly created case, whose `ExpectedOutputs`
directory does not yet exist, `copy_outputs` raises `FileNotFoundError` from
`shutil.rmtree(dst)` before copying anything, so a create-mode run fails
instead of storing the outputs — contradicting the harness's own
documentation that create mode creates a new test case. -/
theorem C6_create_mode_fails_on_fresh_case :
    copy_outputs false [("df.csv", ".csv")] = ([], Except.error Exn.fileNotFoundExn) ∧
    test_snapshots_case RunType.create C6env =
      ([Event.copytreeInputs, Event.runModel], Except.error Exn.fileNotFoundExn) := by
  constructor
  · rfl
  · rfl

/-! ## C3: csv tolerance semantics -/

theorem cellClose_iff (a b : ℚ) : cellClose a b = true ↔ |a - b| ≤ 1 / 100000000 := by
  simp [cellClose, ABSOLUTE_TOLERANCE, RELATIVE_TOLERANCE]

theorem rowsClose_iff (r s : List ℚ) :
    rowsClose r s = true ↔
      r.length = s.length ∧ ∀ q ∈ r.zip s, |q.1 - q.2| ≤ 1 / 100000000 := by
  rw [rowsClose, Bool.and_eq_true, beq_iff_eq, List.all_eq_true]
  constructor
  · rintro ⟨hl, hall⟩
    exact ⟨hl, fun q hq => (cellClose_iff q.1 q.2).mp (hall q hq)⟩
  · rintro ⟨hl, hall⟩
    exact ⟨hl, fun q hq => (cellClose_iff q.1 q.2).mpr (hall q hq)⟩

/-- C3: For equally shaped tables, the csv assertion succeeds exactly when
every actual value differs from its expected counterpart by at most `1e-8`
in absolute value — the relative-tolerance contribution is zero, so the
acceptance threshold does not depend on the expected value's magnitude. -/
theorem C3_csv_absolute_tolerance (d e : List (List ℚ)) (hshape : sameShape d e = true) :
    (assert_csv d e = Except.ok ()) ↔
      ∀ p ∈ d.zip e, ∀ q ∈ p.1.zip p.2, |q.1 - q.2| ≤ 1 / 100000000 := by
  rw [sameShape, Bool.and_eq_true, beq_iff_eq, List.all_eq_true] at hshape
  have hfc : framesClose d e = true ↔
      ∀ p ∈ d.zip e, ∀ q ∈ p.1.zip p.2, |q.1 - q.2| ≤ 1 / 100000000 := by
    rw [framesClose, Bool.and_eq_true, beq_iff_eq, List.all_eq_true]
    constructor
    · rintro ⟨-, hrows⟩ p hp q hq
      exact ((rowsClose_iff p.1 p.2).mp (hrows p hp)).2 q hq
    · intro hall
      refine ⟨hshape.1, fun p hp => (rowsClose_iff p.1 p.2).mpr ?_⟩
      exact ⟨beq_iff_eq.mp (hshape.2 p hp), fun q hq => hall p hp q hq⟩
  rw [assert_csv]
  by_cases hf : framesClose d e = true
  · rw [if_pos hf]
    exact ⟨fun _ => hfc.mp hf, fun _ => rfl⟩
  · simp only [if_neg hf]
    constructor
    · intro h
      simp at h
    · intro hall
      exact absurd (hfc.mpr hall) hf

/-- Witness for C3: a table equal to itself up to `1e-8` on one cell. -/
theorem C3_csv_absolute_tolerance_witness :
    (sameShape [[2, 2], [3, 4 + 1 / 100000000]] [[2, 2], [3, 4]] = true) ∧
    ((assert_csv [[2, 2], [3, 4 + 1 / 100000000]] [[2, 2], [3, 4]] = Except.ok ()) ↔
      ∀ p ∈ ([[2, 2], [3, 4 + 1 / 100000000]] : List (List ℚ)).zip [[2, 2], [3, 4]],
        ∀ q ∈ p.1.zip p.2, |q.1 - q.2| ≤ 1 / 100000000) := by
  have h1 : sameShape [[2, 2], [3, 4 + 1 / 100000000]] [[2, 2], [3, 4]] = true := rfl
  exact ⟨h1, C3_csv_absolute_tolerance _ _ h1⟩

/-! ## C7: npz key mismatch and member tolerance -/

theorem npzLoop_ok_iff (d e : List (String × List ℚ)) :
    ∀ (ks : List String),
      (npzLoop d e ks).2 = Except.ok () ↔
      ∀ n ∈ ks, rowsClose ((d.lookup n).getD []) ((e.lookup n).getD []) = true
  | [] => by simp [npzLoop]
  | n :: rest => by
    rcases hr : rowsClose ((d.lookup n).getD []) ((e.lookup n).getD []) with _ | _
    · simp [npzLoop, hr]
    · rw [npzLoop, if_pos hr]
      have ih := npzLoop_ok_iff d e rest
      constructor
      · intro h m hm
        rcases List.mem_cons.mp hm with h1 | h1
        · exact h1 ▸ hr
        · exact (ih.mp h) m h1
      · intro h
        exact ih.mpr (fun m hm => h m (List.mem_cons_of_mem n hm))

theorem lookup_self_of_nodup_keys :
    ∀ (l : List (String × List ℚ)), (keysOf l).Nodup →
      ∀ p ∈ l, l.lookup p.1 = some p.2
  | [], _, p, hp => by simp at hp
  | (k, v) :: rest, hnd, p, hp => by
    rw [keysOf, List.map_cons, List.nodup_cons] at hnd
    rcases List.mem_cons.mp hp with h1 | h1
    · subst h1
      simp [List.lookup]
    · have hne : (p.1 == k) = false := by
        rw [beq_eq_false_iff_ne]
        intro hb
        have hmem : p.1 ∈ List.map Prod.fst rest := List.mem_map_of_mem Prod.fst h1
        rw [hb] at hmem
        exact hnd.1 hmem
      simp only [List.lookup, hne]
      exact lookup_self_of_nodup_keys rest hnd.2 p h1

/-- C7: Comparison of two npz archives raises a dedicated key error whenever
the member-name sets differ, comparing no members at all; when the name sets
match (archives have distinct member names), the comparison succeeds exactly
when every member of the expected archive is elementwise within absolute
tolerance `1e-8` (relative tolerance zero) of the same-named actual member,
with matching lengths. -/
theorem C7_npz_key_mismatch_and_tolerance (d e : List (String × List ℚ))
    (hnd : (keysOf e).Nodup) :
    (sameKeySet (keysOf d) (keysOf e) = false →
      assert_npz d e = ([], Except.error Exn.keyErrorExn)) ∧
    (sameKeySet (keysOf d) (keysOf e) = true →
      ((assert_npz d e).2 = Except.ok () ↔
        ∀ p ∈ e, ((d.lookup p.1).getD []).length = p.2.length ∧
          ∀ q ∈ ((d.lookup p.1).getD []).zip p.2, |q.1 - q.2| ≤ 1 / 100000000)) := by
  constructor
  · intro h
    simp [assert_npz, h]
  · intro h
    have hnpz : assert_npz d e = npzLoop d e (keysOf e) := by
      simp [assert_npz, h]
    rw [hnpz, npzLoop_ok_iff d e (keysOf e)]
    constructor
    · intro hall p hp
      have hk : p.1 ∈ keysOf e := List.mem_map_of_mem Prod.fst hp
      have := hall p.1 hk
      rw [lookup_self_of_nodup_keys e hnd p hp] at this
      exact (rowsClose_iff _ _).mp this
    · intro hall n hn
      rcases List.mem_map.mp hn with ⟨p, hp, hpn⟩
      subst hpn
      rw [lookup_self_of_nodup_keys e hnd p hp]
      exact (rowsClose_iff _ _).mpr (hall p hp)

/-- Witness for C7: distinct expected member names, applied to a mismatching
and a matching pair of archives through the two conjuncts. -/
theorem C7_npz_key_mismatch_and_tolerance_witness :
    ((keysOf [("alpha", [1]), ("beta", [2])]).Nodup ∧
      sameKeySet (keysOf [("alpha", [1])]) (keysOf [("alpha", [1]), ("beta", [2])]) = false) ∧
    assert_npz [("alpha", [1])] [("alpha", [1]), ("beta", [2])] =
      ([], Except.error Exn.keyErrorExn) := by
  have hnd : (keysOf [("alpha", ([1] : List ℚ)), ("beta", [2])]).Nodup := by decide
  have hkm : sameKeySet (keysOf [("alpha", ([1] : List ℚ))])
      (keysOf [("alpha", ([1] : List ℚ)), ("beta", [2])]) = false := rfl
  exact ⟨⟨hnd, hkm⟩,
    (C7_npz_key_mismatch_and_tolerance [("alpha", [1])] [("alpha", [1]), ("beta", [2])] hnd).1 hkm⟩

/-! ## C8: json comparison under Python equality -/

/-- C8: The json assertion passes exactly when the two parsed documents are
equal under the document model's native (Python) equality; in particular
`{"a": 1}` equals `{"a": 1.0}` because Python compares `int` and `float` by
numeric value, while numerically distinct floats are unequal no matter how
close — there is no tolerance. -/
theorem C8_json_exact_native_equality :
    (∀ d e : Json, (assert_json d e = Except.ok () ↔ pyEq d e = true)) ∧
    assert_json (Json.obj [("a", Json.int 1)]) (Json.obj [("a", Json.float 1)]) =
      Except.ok () ∧
    assert_json (Json.float (1 + 1 / 1000000000)) (Json.float 1) =
      Except.error Exn.assertionExn := by
  refine ⟨fun d e => ?_, ?_, ?_⟩
  · rw [assert_json]
    by_cases h : pyEq d e = true
    · rw [if_pos h]
      exact ⟨fun _ => h, fun _ => rfl⟩
    · rw [if_neg h]
      constructor
      · intro hc
        exact absurd hc (by simp)
      · intro hc
        exact absurd hc h
  · rfl
  · have hne : pyEq (Json.float (1 + 1 / 1000000000)) (Json.float 1) = false := by
      simp only [pyEq, beq_eq_false_iff_ne, ne_eq]
      norm_num
    rw [assert_json, hne]
    simp

/-! ## C9: gap-filling case numbering -/

theorem foldl_min_le_start : ∀ (l : List Nat) (a : Nat), l.foldl min a ≤ a
  | [], a => le_refl a
  | x :: xs, a => le_trans (foldl_min_le_start xs (min a x)) (min_le_left a x)

theorem foldl_min_le_of_mem : ∀ (l : List Nat) (a x : Nat), x ∈ l → l.foldl min a ≤ x
  | [], _, x, h => absurd h (List.not_mem_nil x)
  | y :: ys, a, x, h => by
    rcases List.mem_cons.mp h with h1 | h1
    · subst h1
      exact le_trans (foldl_min_le_start ys (min a x)) (min_le_right a x)
    · exact foldl_min_le_of_mem ys (min a y) x h1

theorem foldl_min_choice : ∀ (l : List Nat) (a : Nat), l.foldl min a = a ∨ l.foldl min a ∈ l
  | [], _ => Or.inl rfl
  | y :: ys, a => by
    rcases foldl_min_choice ys (min a y) with h | h
    · rw [List.foldl_cons, h]
      rcases min_choice a y with h1 | h1
      · exact Or.inl h1
      · refine Or.inr ?_
        rw [h1]
        exact List.mem_cons_self y ys
    · exact Or.inr (List.mem_cons_of_mem y h)

theorem listMin_spec : ∀ (l : List Nat), l ≠ [] →
    ∃ m, listMin l = some m ∧ m ∈ l ∧ ∀ x ∈ l, m ≤ x
  | [], h => absurd rfl h
  | x :: xs, _ => by
    refine ⟨xs.foldl min x, rfl, ?_, ?_⟩
    · rcases foldl_min_choice xs x with h | h
      · rw [h]
        exact List.mem_cons_self x xs
      · exact List.mem_cons_of_mem x h
    · intro y hy
      rcases List.mem_cons.mp hy with h1 | h1
      · subst h1
        exact foldl_min_le_start xs y
      · exact foldl_min_le_of_mem xs x y h1

theorem start_le_foldl_max : ∀ (l : List Nat) (a : Nat), a ≤ l.foldl max a
  | [], a => le_refl a
  | x :: xs, a => le_trans (le_max_left a x) (start_le_foldl_max xs (max a x))

theorem le_foldl_max : ∀ (l : List Nat) (a x : Nat), x ∈ l → x ≤ l.foldl max a
  | [], _, x, h => absurd h (List.not_mem_nil x)
  | y :: ys, a, x, h => by
    rcases List.mem_cons.mp h with h1 | h1
    · subst h1
      exact le_trans (le_max_right a x) (start_le_foldl_max ys (max a x))
    · exact le_foldl_max ys (max a y) x h1

/-- C9: The number chosen for a new case is the smallest positive integer not
already used as a case-number suffix — gap-filling, not `max + 1`. -/
theorem C9_create_numbering_gap_filling (ns : List Nat) :
    ∃ m, create_new_case_number ns = some m ∧ 0 < m ∧ m ∉ ns ∧
      ∀ k, 0 < k → k ∉ ns → m ≤ k := by
  set M := if ns.length > 0 then ns.foldl max 0 else 0 with hM
  have hMb : ∀ x ∈ ns, x ≤ M := by
    intro x hx
    have hlen : ns.length > 0 := by
      rcases ns with _ | ⟨y, ys⟩
      · simp at hx
      · simp
    rw [hM, if_pos hlen]
    exact le_foldl_max ns 0 x hx
  have hMnotin : M + 1 ∉ ns := fun hmem => by
    have := hMb (M + 1) hmem
    omega
  have hMmem : M + 1 ∈ (List.range' 1 (M + 1)).filter (fun c => !(ns.contains c)) := by
    rw [List.mem_filter]
    refine ⟨?_, by simpa using hMnotin⟩
    have : M + 1 ∈ List.range' 1 (M + 1) := by
      rw [List.mem_range'_1]
      omega
    exact this
  have hne : (List.range' 1 (M + 1)).filter (fun c => !(ns.contains c)) ≠ [] :=
    List.ne_nil_of_mem hMmem
  rcases listMin_spec _ hne with ⟨m, hmin, hmem, hmle⟩
  have hgoal : create_new_case_number ns = some m := by
    rw [create_new_case_number, ← hM]
    exact hmin
  rw [List.mem_filter] at hmem
  have hm_range : 1 ≤ m ∧ m < 1 + (M + 1) := List.mem_range'_1.mp hmem.1
  have hm_notin : m ∉ ns := by simpa using hmem.2
  refine ⟨m, hgoal, by omega, hm_notin, ?_⟩
  intro k hk hknotin
  by_cases hkM : k ≤ M + 1
  · have hkmem : k ∈ (List.range' 1 (M + 1)).filter (fun c => !(ns.contains c)) := by
      rw [List.mem_filter, List.mem_range'_1]
      exact ⟨⟨hk, by omega⟩, by simpa using hknotin⟩
    exact hmle k hkmem
  · omega

/-! ## C10: only the expected tree is examined -/

theorem lookup_eq_none_of_not_mem_keys :
    ∀ (l : List (String × Content)) (k : String), k ∉ l.map Prod.fst → l.lookup k = none
  | [], _, _ => rfl
  | (k1, v) :: rest, k, h => by
    rw [List.map_cons, List.mem_cons] at h
    push_neg at h
    have hb : (k == k1) = false := beq_eq_false_iff_ne.mpr h.1
    simp only [List.lookup, hb]
    exact lookup_eq_none_of_not_mem_keys rest k h.2

theorem lookup_append_of_right_none (l2 : List (String × Content)) :
    ∀ (l1 : List (String × Content)) (k : String), l2.lookup k = none →
      (l1 ++ l2).lookup k = l1.lookup k
  | [], k, h => by simpa using h
  | (k1, v) :: rest, k, h => by
    rcases hb : (k == k1) with _ | _
    · simp only [List.cons_append, List.lookup, hb]
      exact lookup_append_of_right_none l2 rest k h
    · simp only [List.cons_append, List.lookup, hb]

theorem compareFsLoop_events (actualFs : List (String × Content)) :
    ∀ (efs : List (String × Content)), ∀ ev ∈ (compareFsLoop actualFs efs).1,
      ev = Event.rmtreeOutputs ∨ ∃ p ∈ efs, ev = Event.assertFile p.1
  | [], ev, h => by simp [compareFsLoop] at h
  | (rel, c) :: rest, ev, h => by
    rcases hc : assert_file (actualFs.lookup rel) c with e | u
    · simp only [compareFsLoop, hc] at h
      rcases List.mem_cons.mp h with h1 | h1
      · exact Or.inr ⟨(rel, c), List.mem_cons_self _ _, h1⟩
      · left
        simpa using h1
    · simp only [compareFsLoop, hc] at h
      rcases List.mem_cons.mp h with h1 | h1
      · exact Or.inr ⟨(rel, c), List.mem_cons_self _ _, h1⟩
      · rcases compareFsLoop_events actualFs rest ev h1 with h2 | ⟨p, hp, h2⟩
        · exact Or.inl h2
        · exact Or.inr ⟨p, List.mem_cons_of_mem _ hp, h2⟩

theorem compareFsLoop_append_extras (actualFs extras : List (String × Content)) :
    ∀ (efs : List (String × Content)), (∀ p ∈ extras, p.1 ∉ efs.map Prod.fst) →
      compareFsLoop (actualFs ++ extras) efs = compareFsLoop actualFs efs
  | [], _ => rfl
  | (rel, c) :: rest, hdisj => by
    have hnone : extras.lookup rel = none := by
      apply lookup_eq_none_of_not_mem_keys
      intro hm
      rcases List.mem_map.mp hm with ⟨p, hp, hpr⟩
      apply hdisj p hp
      rw [hpr]
      simp
    have hlk : (actualFs ++ extras).lookup rel = actualFs.lookup rel :=
      lookup_append_of_right_none extras actualFs rel hnone
    have ih := compareFsLoop_append_extras actualFs extras rest
      (fun p hp hm => hdisj p hp (by rw [List.map_cons]; exact List.mem_cons_of_mem _ hm))
    rcases hc : assert_file (actualFs.lookup rel) c with e | u <;>
      simp only [compareFsLoop, hlk, hc, ih]

/-- C10: The comparison walk examines only relative paths present in the
expected tree, and its whole outcome is unchanged when the actual tree gains
extra files at paths with no expected counterpart — a run producing extra,
unexpected files still passes. -/
theorem C10_extra_actual_files_never_examined
    (expectedFs actualFs extras : List (String × Content))
    (hdisj : ∀ p ∈ extras, p.1 ∉ expectedFs.map Prod.fst) :
    (∀ rel, Event.assertFile rel ∈ (compare_outputs_fs expectedFs actualFs).1 →
      rel ∈ expectedFs.map Prod.fst) ∧
    compare_outputs_fs expectedFs (actualFs ++ extras) =
      compare_outputs_fs expectedFs actualFs := by
  constructor
  · intro rel h
    rcases compareFsLoop_events actualFs expectedFs _ h with h1 | ⟨p, hp, h1⟩
    · exact absurd h1 (by simp)
    · have hrp : rel = p.1 := by injection h1
      rw [hrp]
      exact List.mem_map_of_mem Prod.fst hp
  · exact compareFsLoop_append_extras actualFs extras expectedFs hdisj

/-- Witness for C10: an actual tree with one matching csv plus one extra
file whose path has no expected counterpart. -/
theorem C10_extra_actual_files_never_examined_witness :
    (∀ p ∈ [("extra.txt", Content.other extraExt)],
      p.1 ∉ ([("df.csv", Content.csv [[2, 2], [3, 4]])].map Prod.fst)) ∧
    ((∀ rel, Event.assertFile rel ∈
        (compare_outputs_fs [("df.csv", Content.csv [[2, 2], [3, 4]])]
          [("df.csv", Content.csv [[2, 2], [3, 4]])]).1 →
        rel ∈ [("df.csv", Content.csv [[2, 2], [3, 4]])].map Prod.fst) ∧
      compare_outputs_fs [("df.csv", Content.csv [[2, 2], [3, 4]])]
          ([("df.csv", Content.csv [[2, 2], [3, 4]])] ++ [("extra.txt", Content.other extraExt)]) =
        compare_outputs_fs [("df.csv", Content.csv [[2, 2], [3, 4]])]
          [("df.csv", Content.csv [[2, 2], [3, 4]])]) := by
  have h1 : ∀ p ∈ [("extra.txt", Content.other extraExt)],
      p.1 ∉ ([("df.csv", Content.csv [[2, 2], [3, 4]])].map Prod.fst) := by
    intro p hp
    rcases List.mem_cons.mp hp with h | h
    · subst h
      simp
    · simp at h
  exact ⟨h1, C10_extra_actual_files_never_examined _ _ _ h1⟩

end Snapshots
